import Mathlib

/-!
Verification development for the cw-sdk state-transition core.

The Rust sources are shallowly embedded:

* `Sdk` models `sdk/src/state_machine.rs`: the in-memory `State` (BTreeMaps),
  its message dispatch (`handle_tx`'s per-message match), queries and commit.
  Machine integers (`u64`) are modelled as `Nat`; overflow of the height or
  the code counter panics in the source's debug profile and is never reached
  by any scenario considered here, so no wrap-around is modelled.
* `Pkg` models `packages/state-machine/src/execute.rs`: the cached-store
  message executors.  The `Cached` overlay of the missing `cw-store` crate is
  represented by value passing: `Cached::new(store)` is a copy, `flush`
  returns the updated copy to the enclosing scope, and dropping the overlay
  without flushing returns the original value.
* The wasm VM (`cosmwasm_vm`) is external to the repository; it is modelled
  as an explicit parameter: a bundle of deterministic functions from
  (code bytes, env data, message, substore contents) to a contract result and
  the post-call substore contents.  A VM-level error (`?` on
  `Instance::from_code` / `call_*`) is the `Except.error` channel.
* Rust panics (map indexing on a missing key, `todo!()`) are modelled as an
  explicit `crash`/`diverged` outcome.

Bytes are `List Nat` with each entry a byte value.
-/

/-- Byte strings, as lists of byte values. -/
abbrev Bytes := List Nat

/-- Association-list map mirroring `BTreeMap` at the access level: `find?`
looks a key up, `insert` overwrites an existing binding in place or appends a
new one.  Iteration order is irrelevant to every claim considered. -/
abbrev AssocMap (α β : Type) := List (α × β)

namespace AssocMap

variable {α β : Type} [DecidableEq α]

/-- Empty map. -/
def empty : AssocMap α β := []

/-- Key lookup. -/
def find? (m : AssocMap α β) (k : α) : Option β :=
  match m with
  | [] => none
  | (k', v) :: rest => if k' = k then some v else find? rest k

/-- Insert, overwriting an existing binding in place. -/
def insert (m : AssocMap α β) (k : α) (v : β) : AssocMap α β :=
  match m with
  | [] => [(k, v)]
  | (k', v') :: rest =>
    if k' = k then (k, v) :: rest else (k', v') :: insert rest k v

/-- All keys of the map. -/
def keys (m : AssocMap α β) : List α := m.map Prod.fst

theorem find?_insert_self (m : AssocMap α β) (k : α) (v : β) :
    (m.insert k v).find? k = some v := by
  induction m with
  | nil => simp [insert, find?]
  | cons hd tl ih =>
    obtain ⟨k', v'⟩ := hd
    by_cases h : k' = k <;> simp [insert, find?, h, ih]

theorem find?_insert_ne (m : AssocMap α β) (k k' : α) (v : β) (h : k' ≠ k) :
    (m.insert k v).find? k' = m.find? k' := by
  induction m with
  | nil => simp [insert, find?, Ne.symm h]
  | cons hd tl ih =>
    obtain ⟨k₀, v₀⟩ := hd
    by_cases h₀ : k₀ = k
    · subst h₀
      simp [insert, find?, Ne.symm h]
    · by_cases h₁ : k₀ = k' <;> simp [insert, find?, h₀, h₁, h, ih]

/-- Inserting a key that is not present appends the binding. -/
theorem insert_of_not_mem (m : AssocMap α β) (k : α) (v : β)
    (h : k ∉ m.keys) :
    m.insert k v = m ++ [(k, v)] := by
  induction m with
  | nil => rfl
  | cons hd tl ih =>
    obtain ⟨k₀, v₀⟩ := hd
    simp only [keys, List.map_cons, List.mem_cons] at h
    push_neg at h
    simp [insert, Ne.symm h.1, ih h.2]

end AssocMap

section Sha256

/-!
Modelled from the spec: the repository's `sdk/src/hash.rs` (a thin wrapper
around the `sha2` crate) is not under `src/`.  SHA-256 is implemented here
per FIPS 180-4; the round and initialisation constants are derived, as the
standard defines them, from the fractional parts of the cube and square
roots of the first primes.
-/

/-- The first 64 primes, sources of the SHA-256 constants. -/
def primes64 : List Nat :=
  [2, 3, 5, 7, 11, 13, 17, 19, 23, 29, 31, 37, 41, 43, 47, 53,
   59, 61, 67, 71, 73, 79, 83, 89, 97, 101, 103, 107, 109, 113, 127, 131,
   137, 139, 149, 151, 157, 163, 167, 173, 179, 181, 191, 193, 197, 199, 211, 223,
   227, 229, 233, 239, 241, 251, 257, 263, 269, 271, 277, 281, 283, 293, 307, 311]

/-- Integer square root by binary search over 40 bits. -/
def isqrt40 (n : Nat) : Nat :=
  (List.range 40).foldl
    (fun r i => let c := r + (1 <<< (39 - i)); if c * c ≤ n then c else r) 0

/-- Integer cube root by binary search over 40 bits. -/
def icbrt40 (n : Nat) : Nat :=
  (List.range 40).foldl
    (fun r i => let c := r + (1 <<< (39 - i)); if c * c * c ≤ n then c else r) 0

/-- SHA-256 round constants: fractional parts of the cube roots of the first
64 primes, scaled to 32 bits. -/
def sha256K : List Nat := primes64.map (fun p => icbrt40 (p <<< 96) % (2 ^ 32))

/-- SHA-256 initial hash value: fractional parts of the square roots of the
first 8 primes, scaled to 32 bits. -/
def sha256H0 : List Nat := (primes64.take 8).map (fun p => isqrt40 (p <<< 64) % (2 ^ 32))

/-- Right rotation of a 32-bit word. -/
def rotr32 (n x : Nat) : Nat := ((x >>> n) ||| (x <<< (32 - n))) % (2 ^ 32)

/-- Bitwise complement of a 32-bit word. -/
def not32 (x : Nat) : Nat := x ^^^ (2 ^ 32 - 1)

/-- Big-endian bytes of a 64-bit word. -/
def u64be (n : Nat) : Bytes :=
  ((List.range 8).map (fun i => n / (2 ^ (8 * (7 - i))) % 256) : List Nat)

/-- Big-endian bytes of a 32-bit word. -/
def u32be (n : Nat) : Bytes :=
  ((List.range 4).map (fun i => n / (2 ^ (8 * (3 - i))) % 256) : List Nat)

/-- FIPS 180-4 padding: append `0x80`, zeros, and the 64-bit bit length. -/
def sha256Pad (msg : Bytes) : Bytes :=
  let len := (msg : List Nat).length
  let z := (119 - len % 64) % 64
  ((msg : List Nat) ++ [0x80] ++ List.replicate z 0 ++ (u64be (8 * len) : List Nat) : List Nat)

/-- Split a padded message into 64-byte blocks. -/
def sha256Blocks (padded : Bytes) : List (List Nat) :=
  (List.range ((padded : List Nat).length / 64)).map
    (fun i => ((padded : List Nat).drop (64 * i)).take 64)

/-- Message schedule: the 16 block words extended to 64. -/
def sha256Schedule (w16 : List Nat) : List Nat :=
  (List.range 48).foldl
    (fun w _ =>
      let n := w.length
      let x15 := w.getD (n - 15) 0
      let x2 := w.getD (n - 2) 0
      let s0 := rotr32 7 x15 ^^^ rotr32 18 x15 ^^^ (x15 >>> 3)
      let s1 := rotr32 17 x2 ^^^ rotr32 19 x2 ^^^ (x2 >>> 10)
      w ++ [(w.getD (n - 16) 0 + s0 + w.getD (n - 7) 0 + s1) % (2 ^ 32)])
    w16

/-- Working variables of the compression loop. -/
structure Sha256Regs where
  a : Nat
  b : Nat
  c : Nat
  d : Nat
  e : Nat
  f : Nat
  g : Nat
  hh : Nat
deriving DecidableEq

/-- One round of the compression loop. -/
def sha256Round (s : Sha256Regs) (kw : Nat × Nat) : Sha256Regs :=
  let S1 := rotr32 6 s.e ^^^ rotr32 11 s.e ^^^ rotr32 25 s.e
  let ch := (s.e &&& s.f) ^^^ (not32 s.e &&& s.g)
  let t1 := (s.hh + S1 + ch + kw.1 + kw.2) % (2 ^ 32)
  let S0 := rotr32 2 s.a ^^^ rotr32 13 s.a ^^^ rotr32 22 s.a
  let maj := (s.a &&& s.b) ^^^ (s.a &&& s.c) ^^^ (s.b &&& s.c)
  let t2 := (S0 + maj) % (2 ^ 32)
  ⟨(t1 + t2) % (2 ^ 32), s.a, s.b, s.c, (s.d + t1) % (2 ^ 32), s.e, s.f, s.g⟩

/-- Compress one 64-byte block into the running hash state. -/
def sha256Compress (h : List Nat) (block : List Nat) : List Nat :=
  let w16 := (List.range 16).map
    (fun i =>
      (block.getD (4 * i) 0 <<< 24) ||| (block.getD (4 * i + 1) 0 <<< 16) |||
        (block.getD (4 * i + 2) 0 <<< 8) ||| block.getD (4 * i + 3) 0)
  let w := sha256Schedule w16
  let init : Sha256Regs :=
    ⟨h.getD 0 0, h.getD 1 0, h.getD 2 0, h.getD 3 0,
     h.getD 4 0, h.getD 5 0, h.getD 6 0, h.getD 7 0⟩
  let s := (List.zip sha256K w).foldl sha256Round init
  [(h.getD 0 0 + s.a) % (2 ^ 32), (h.getD 1 0 + s.b) % (2 ^ 32),
   (h.getD 2 0 + s.c) % (2 ^ 32), (h.getD 3 0 + s.d) % (2 ^ 32),
   (h.getD 4 0 + s.e) % (2 ^ 32), (h.getD 5 0 + s.f) % (2 ^ 32),
   (h.getD 6 0 + s.g) % (2 ^ 32), (h.getD 7 0 + s.hh) % (2 ^ 32)]

/-- SHA-256 digest of a byte string. -/
def sha256 (msg : Bytes) : Bytes :=
  let hs := (sha256Blocks (sha256Pad msg)).foldl sha256Compress sha256H0
  (hs.foldr (fun w acc => (u32be w : List Nat) ++ acc) [] : List Nat)

/-- Lowercase hex digit. -/
def hexDigit (n : Nat) : Char := "0123456789abcdef".toList.getD n '0'

/-- Lowercase hex encoding of bytes, mirroring `hex::encode`. -/
def hexEncode (bs : Bytes) : String :=
  String.mk ((bs : List Nat).foldr
    (fun b acc => hexDigit (b / 16) :: hexDigit (b % 16) :: acc) [])

end Sha256

section Address

/-!
Modelled from the spec: the repository's `sdk/src/address.rs` is not under
`src/`.  Per spec §4.7 and §6, `derive_from_label(label) =
bech32(ADDRESS_PREFIX, sha256("module" ∥ label_bytes)[:20])` with the
human-readable prefix `cw`.  Labels considered here are ASCII, so a string's
code points are its UTF-8 bytes.
-/

/-- Bytes of an ASCII string. -/
def strBytes (s : String) : Bytes := (s.toList.map Char.toNat : List Nat)

/-- The configured human-readable address prefix (spec §6: default `cw`). -/
def addressPrefix : String := "cw"

/-- The bech32 data-character set. -/
def bech32Charset : List Char := "qpzry9x8gf2tvdc0s3jn54khce6mua7l".toList

/-- The bech32 checksum generator constants. -/
def bech32Gen : List Nat := [0x3b6a57b2, 0x26508e6d, 0x1ea119fa, 0x3d4233dd, 0x2a1462b3]

/-- The bech32 checksum polynomial. -/
def bech32Polymod (values : List Nat) : Nat :=
  values.foldl
    (fun chk v =>
      let b := chk >>> 25
      let chk' := ((chk &&& 0x1ffffff) <<< 5) ^^^ v
      (List.range 5).foldl
        (fun c i => if (b >>> i) &&& 1 = 1 then c ^^^ bech32Gen.getD i 0 else c) chk')
    1

/-- The human-readable part expanded for checksumming. -/
def bech32HrpExpand (hrp : String) : List Nat :=
  hrp.toList.map (fun c => c.toNat >>> 5) ++ [0] ++ hrp.toList.map (fun c => c.toNat &&& 31)

/-- Regroup 8-bit bytes into 5-bit groups, zero-padding the tail. -/
def toBase32 (bs : Bytes) : List Nat :=
  let step := fun (st : Nat × Nat × List Nat) (b : Nat) =>
    let acc := (st.1 <<< 8) ||| b
    let bits := st.2.1 + 8
    let k := bits / 5
    let out := st.2.2 ++ (List.range k).map (fun i => (acc >>> (bits - 5 * (i + 1))) &&& 31)
    (acc, bits % 5, out)
  let fin := (bs : List Nat).foldl step (0, 0, [])
  if fin.2.1 = 0 then fin.2.2 else fin.2.2 ++ [(fin.1 <<< (5 - fin.2.1)) &&& 31]

/-- Bech32 encoding of 5-bit data under a human-readable part. -/
def bech32Encode (hrp : String) (data : List Nat) : String :=
  let pm := bech32Polymod (bech32HrpExpand hrp ++ data ++ [0, 0, 0, 0, 0, 0]) ^^^ 1
  let checksum := (List.range 6).map (fun i => (pm >>> (5 * (5 - i))) &&& 31)
  hrp ++ "1" ++ String.mk ((data ++ checksum).map (fun v => bech32Charset.getD v 'q'))

/-- Contract address derived deterministically from a label (spec §4.7). -/
def derive_from_label (label : String) : String :=
  bech32Encode addressPrefix (toBase32 ((sha256 (strBytes ("module" ++ label)) : List Nat).take 20))

end Address

section SharedTypes

/-- A coin: denomination and amount (`cosmwasm_std::Coin`; the `Uint128`
amount is modelled as `Nat`). -/
structure Coin where
  denom : String
  amount : Nat
deriving DecidableEq

/-- An event: a type string and a list of key/value attributes
(`cosmwasm_std::Event`). -/
structure Event where
  ty : String
  attributes : List (String × String)
deriving DecidableEq

/-- Placeholder for `cosmwasm_std::CosmosMsg`: the state machines only ever
test whether `response.messages` is empty, never inspect a message. -/
inductive CosmosMsg where
| mk
deriving DecidableEq

/-- A contract response (`cosmwasm_std::Response<Empty>`), restricted to the
fields the state machines read. -/
structure Response where
  messages : List CosmosMsg
  attributes : List (String × String)
  events : List Event
deriving DecidableEq

/-- `cosmwasm_std::ContractResult<Response>`: the value a successful VM call
returns — either the contract's response or the contract's own error
string. -/
inductive CwResult where
| ok (resp : Response)
| err (e : String)
deriving DecidableEq

/-- `cosmwasm_std::ContractResult<Binary>`, returned by `call_query`. -/
inductive BinResult where
| ok (b : Bytes)
| err (e : String)
deriving DecidableEq

end SharedTypes

namespace Sdk

/-!
Embedding of `sdk/src/state_machine.rs`: the in-memory `State` and its
transition rules.  The serde byte layer (`serde_json` round-trips at the
envelope) and the transaction authenticator are external crates or missing
modules and are not modelled; messages and queries enter in structured form.
-/

/-- A base account, as used by `query_account` (`pubkey`, `sequence`). -/
structure Account where
  pubkey : Bytes
  sequence : Nat
deriving DecidableEq

/-- A stored wasm byte code with its creator. -/
structure Code where
  creator : String
  wasm_byte_code : Bytes
deriving DecidableEq

/-- A contract account: code id, label, optional admin. -/
structure Contract where
  code_id : Nat
  label : String
  admin : Option String
deriving DecidableEq

/-- A contract's key/value store (`crate::store::ContractStore` is not under
`src/`; modelled from the spec as a byte-keyed map whose `get` never
errors). -/
abbrev ContractStore := AssocMap Bytes Bytes

/-- The application state (`State` in `state_machine.rs`). -/
structure State where
  height : Nat
  chain_id : String
  code_count : Nat
  contract_count : Nat
  accounts : AssocMap String Account
  codes : AssocMap Nat Code
  contracts : AssocMap Nat Contract
  stores : AssocMap Nat ContractStore
deriving DecidableEq

/-- The `Default` state: every counter zero, every map empty. -/
def State.empty : State := ⟨0, "", 0, 0, [], [], [], []⟩

/-- The `StateError` variants reachable from the embedded paths.  `Serde`
and `Auth` belong to the unmodelled envelope/authentication layer; `Backend`
and `Vm` are folded into `Vm`. -/
inductive StateError where
| Vm (e : String)
| Contract (e : String)
| CodeNotFound (code_id : Nat)
| ContractNotFound (address : Nat)
| SubmessagesUnsupported
| FundsUnsupported
| MigrationUnsupported
deriving DecidableEq

/-- Result of handling one message: success with events, a returned error,
or a Rust panic (`BTreeMap` indexing on a missing key). -/
inductive Outcome where
| ok (events : List Event)
| fail (e : StateError)
| crash (msg : String)
deriving DecidableEq

/-- The external wasm VM (`cosmwasm_vm`), as a bundle of deterministic
functions.  Each call maps the code bytes, the sender (for `mock_info`), the
message and the pre-call store contents to either a VM-level error (the `?`
channel of `Instance::from_code` / `call_*`) or a contract result together
with the recycled post-call store contents. -/
structure Vm where
  instantiate : Bytes → String → Bytes → ContractStore → Except String (CwResult × ContractStore)
  execute : Bytes → String → Bytes → ContractStore → Except String (CwResult × ContractStore)
  query : Bytes → Bytes → ContractStore → Except String (BinResult × ContractStore)

/-- `State::info`: block height and the mock app hash `sha256(height_be)`. -/
def info (s : State) : Nat × Bytes := (s.height, sha256 (u64be s.height))

/-- `State::commit`: advance the height by 1, return the new height and app
hash. -/
def commit (s : State) : State × (Nat × Bytes) :=
  let s' := { s with height := s.height + 1 }
  (s', info s')

/-- `prepend`: insert an event at the front of an event list
(`events.splice(..0, vec![event])`). -/
def prepend (event : Event) (events : List Event) : List Event :=
  event :: events

/-- The event emitted by `State::store_code`. -/
def storeCodeEvent (sender : String) (code_id : Nat) (code : Bytes) : Event :=
  ⟨"store_code",
   [("code_id", toString code_id), ("sender", sender),
    ("hash", hexEncode (sha256 code))]⟩

/-- `State::store_code`: increment the code count, insert the code under the
new count, emit the `store_code` event.  The source never fails here. -/
def storeCode (s : State) (sender : String) (wasm_byte_code : Bytes) : State × Event :=
  let code_id := s.code_count + 1
  ({ s with
      code_count := code_id,
      codes := s.codes.insert code_id ⟨sender, wasm_byte_code⟩ },
   storeCodeEvent sender code_id wasm_byte_code)

/-- `State::instantiate_contract`.  Funds are rejected up front; the code is
fetched by indexing (a missing id is a Rust panic); the VM instantiates
against a fresh empty store; on success with no submessages the contract is
registered under the incremented contract count, which serves as its
address. -/
def instantiateContract (vm : Vm) (s : State) (sender : String) (code_id : Nat)
    (msg : Bytes) (funds : List Coin) (label : String) (admin : Option String) :
    State × Outcome :=
  if funds ≠ [] then (s, .fail .FundsUnsupported) else
  match s.codes.find? code_id with
  | none => (s, .crash "no entry found for key")
  | some code =>
    match vm.instantiate code.wasm_byte_code sender msg AssocMap.empty with
    | .error e => (s, .fail (.Vm e))
    | .ok (.err e, _) => (s, .fail (.Contract e))
    | .ok (.ok resp, storage) =>
      if resp.messages ≠ [] then (s, .fail .SubmessagesUnsupported) else
      let contract_addr := s.contract_count + 1
      ({ s with
          contract_count := contract_addr,
          contracts := s.contracts.insert contract_addr ⟨code_id, label, admin⟩,
          stores := s.stores.insert contract_addr storage },
       .ok (prepend
        ⟨"instantiate_contract",
         [("sender", sender), ("code_id", toString code_id),
          ("contract_address", toString contract_addr)] ++ resp.attributes⟩
        resp.events))

/-- `State::execute_contract`.  Funds are rejected up front; a missing store
is `ContractNotFound`; the contract and code are then fetched by indexing
(panic on a missing key); on success with no submessages the recycled store
replaces the contract's store. -/
def executeContract (vm : Vm) (s : State) (sender : String) (contract_addr : Nat)
    (msg : Bytes) (funds : List Coin) : State × Outcome :=
  if funds ≠ [] then (s, .fail .FundsUnsupported) else
  match s.stores.find? contract_addr with
  | none => (s, .fail (.ContractNotFound contract_addr))
  | some storage =>
    match s.contracts.find? contract_addr with
    | none => (s, .crash "no entry found for key")
    | some contract =>
      match s.codes.find? contract.code_id with
      | none => (s, .crash "no entry found for key")
      | some code =>
        match vm.execute code.wasm_byte_code sender msg storage with
        | .error e => (s, .fail (.Vm e))
        | .ok (.err e, _) => (s, .fail (.Contract e))
        | .ok (.ok resp, storage') =>
          if resp.messages ≠ [] then (s, .fail .SubmessagesUnsupported) else
          ({ s with stores := s.stores.insert contract_addr storage' },
           .ok (prepend
            ⟨"execute_contract",
             [("sender", sender), ("contract_address", toString contract_addr)]
               ++ resp.attributes⟩
            resp.events))

/-- The message envelope (`SdkMsg`), with the contract address as the
numeric form `state_machine.rs` consumes. -/
inductive SdkMsg where
| storeCode (wasm_byte_code : Bytes)
| instantiate (code_id : Nat) (msg : Bytes) (funds : List Coin) (label : String)
    (admin : Option String)
| execute (contract : Nat) (msg : Bytes) (funds : List Coin)
| migrate (contract : Nat) (code_id : Nat) (msg : Bytes)
deriving DecidableEq

/-- One message of `State::handle_tx`'s dispatch.  `Migrate` always fails
with `MigrationUnsupported` (`State::migrate_contract` takes `&self` and
returns the error unconditionally). -/
def handleMsg (vm : Vm) (s : State) (sender : String) : SdkMsg → State × Outcome
| .storeCode wasm =>
  let (s', ev) := storeCode s sender wasm
  (s', .ok [ev])
| .instantiate code_id msg funds label admin =>
  instantiateContract vm s sender code_id msg funds label admin
| .execute contract msg funds => executeContract vm s sender contract msg funds
| .migrate _ _ _ => (s, .fail .MigrationUnsupported)

/-- The message loop of `State::handle_tx`: messages run in order, events
accumulate, and the first failure aborts the loop (earlier messages' writes
remain, as in the source). -/
def applyMsgs (vm : Vm) (sender : String) : State → List SdkMsg → State × Outcome
| s, [] => (s, .ok [])
| s, m :: rest =>
  match handleMsg vm s sender m with
  | (s', .ok evs) =>
    match applyMsgs vm sender s' rest with
    | (s'', .ok evs') => (s'', .ok (evs ++ evs'))
    | other => other
  | other => other

end Sdk

namespace Pkg

/-!
Embedding of `packages/state-machine/src/execute.rs`.  The byte-keyed
persistent layout (`cw-storage-plus` items `CODE_COUNT`, `CODES`, `ACCOUNTS`
and the per-contract prefixed substores, from the missing `state.rs` and
`cw-store`) is modelled from the spec (§6, persisted state layout) as a typed
record `Chain`; the `Cached` overlay is value passing — `Cached::new(store)`
copies the value, `flush` hands the updated value back, and an overlay
dropped without `flush` leaves the underlying value untouched.  The missing
per-message dispatcher wraps each message in an overlay it discards on
failure (spec §4.5); the executors below are therefore modelled as returning
the underlying store value their caller retains on each exit path.
-/

/-- An account (`cw_sdk::Account`): base or contract. -/
inductive Account where
| base (pubkey : Bytes) (sequence : Nat)
| contract (code_id : Nat) (label : String) (admin : Option String)
deriving DecidableEq

/-- A contract's substore: the prefixed view of the cached store assigned to
one contract address. -/
abbrev KV := AssocMap Bytes Bytes

/-- The committed chain state reachable from the executors: the code
registry, the account registry, and the per-contract substores. -/
structure Chain where
  codeCount : Nat
  codes : AssocMap Nat Bytes
  accounts : AssocMap String Account
  substores : AssocMap String KV
deriving DecidableEq

/-- The empty chain. -/
def Chain.empty : Chain := ⟨0, [], [], []⟩

/-- The substore of a contract address; an address never written has the
empty view. -/
def substoreOf (c : Chain) (addr : String) : KV :=
  (c.substores.find? addr).getD []

/-- Replace a contract's substore (the effect of flushing its prefixed
pending writes). -/
def setSub (c : Chain) (addr : String) (kv : KV) : Chain :=
  { c with substores := c.substores.insert addr kv }

/-- The error kinds of the package state machine (its `error.rs` is not
under `src/`; variants follow the spec's §7 taxonomy).  A missing code id is
reported as `CodeNotFound` per spec §4.5. -/
inductive PError where
| IllegalLabel
| AccountFound (address : String)
| CodeNotFound (code_id : Nat)
| ContractNotFound (address : String)
| FundTransferFailed (e : String)
| Vm (e : String)
deriving DecidableEq

/-- The bank contract's sudo message (`cw_sdk::bank::SudoMsg`), in
structured form; `to_binary` of distinct values is distinct, so the JSON
byte round-trip is dropped. -/
inductive BankSudoMsg where
| transfer (fromAddr : String) (toAddr : String) (coins : List Coin)
deriving DecidableEq

/-- One VM invocation, recorded for event/ordering claims: a sudo call into
a contract, or an `instantiate`/`execute` entry-point call. -/
inductive PCall where
| sudoCall (addr : String) (msg : BankSudoMsg)
| entryCall (addr : String) (msg : Bytes)
deriving DecidableEq

/-- The external wasm VM for the package executors: each call maps the code
bytes, the env contract address, the message info data and the pre-call
substore contents to a VM-level error or a contract result with the
post-call substore contents. -/
structure PVm where
  instantiate : Bytes → String → String → Bytes → List Coin → KV → Except String (CwResult × KV)
  execute : Bytes → String → String → Bytes → List Coin → KV → Except String (CwResult × KV)
  sudoEntry : Bytes → String → BankSudoMsg → KV → Except String (CwResult × KV)

/-- `code_by_address` (from the missing `state.rs`; modelled from the spec:
load the contract account at the address, failing `contract_not_found`, then
its code). -/
def codeByAddress (c : Chain) (addr : String) : Except PError Bytes :=
  match c.accounts.find? addr with
  | some (.contract code_id _ _) =>
    match c.codes.find? code_id with
    | some code => .ok code
    | none => .error (.CodeNotFound code_id)
  | _ => .error (.ContractNotFound addr)

/-- `sudo_contract`: run a sudo call inside a fresh overlay over the given
store; flush the overlay only when the contract result is `Ok`; hand the
(possibly updated) store back.  The first component records the VM
invocation when one happened. -/
def sudoContract (vm : PVm) (c : Chain) (addr : String) (msg : BankSudoMsg) :
    List PCall × Except PError (CwResult × Chain) :=
  match codeByAddress c addr with
  | .error e => ([], .error e)
  | .ok code =>
    match vm.sudoEntry code addr msg (substoreOf c addr) with
    | .error e => ([.sudoCall addr msg], .error (.Vm e))
    | .ok (.err e, _) => ([.sudoCall addr msg], .ok (.err e, c))
    | .ok (.ok resp, sub) => ([.sudoCall addr msg], .ok (.ok resp, setSub c addr sub))

/-- `transfer_funds`: sudo the bank contract with
`Transfer{from: sender, to: contract, coins: funds}`; a contract-level `Err`
becomes `FundTransferFailed` with the bank's error string; on `Ok` the
bank's events are returned with the updated store. -/
def transferFunds (vm : PVm) (c : Chain) (contractAddr sender : String) (funds : List Coin) :
    List PCall × Except PError (List Event × Chain) :=
  let bankAddr := derive_from_label "bank"
  let sudoMsg := BankSudoMsg.transfer sender contractAddr funds
  match sudoContract vm c bankAddr sudoMsg with
  | (calls, .error e) => (calls, .error e)
  | (calls, .ok (.ok resp, c')) => (calls, .ok (resp.events, c'))
  | (calls, .ok (.err e, _)) => (calls, .error (.FundTransferFailed e))

/-- Decidable equality for `Except` values with decidable components. -/
instance {ε α : Type} [DecidableEq ε] [DecidableEq α] : DecidableEq (Except ε α) := fun a b =>
  match a, b with
  | .error e, .error e' =>
    if h : e = e' then .isTrue (by subst h; rfl)
    else .isFalse (fun hh => h (by cases hh; rfl))
  | .error _, .ok _ => .isFalse (fun hh => Except.noConfusion hh)
  | .ok _, .error _ => .isFalse (fun hh => Except.noConfusion hh)
  | .ok v, .ok v' =>
    if h : v = v' then .isTrue (by subst h; rfl)
    else .isFalse (fun hh => h (by cases hh; rfl))

/-- Joint result of a package executor: the underlying store value the
caller retains, the VM invocations that happened, and the returned
`Result<ContractResult<Response>>`. -/
structure ExecOut where
  chain : Chain
  calls : List PCall
  result : Except PError CwResult
deriving DecidableEq

/-- `execute_contract`: wrap the store in an overlay; if funds are attached,
first transfer them through the bank sudo call inside that overlay; load the
contract's code; call `execute`; on contract `Ok` flush the overlay and
prepend the fund-transfer events to the response's events; on any failure
the overlay is dropped and the underlying store is unchanged. -/
def executeContract (vm : PVm) (c : Chain) (contractAddr sender : String)
    (funds : List Coin) (msg : Bytes) : ExecOut :=
  let fundStep : List PCall × Except PError (List Event × Chain) :=
    if funds = [] then ([], .ok ([], c))
    else transferFunds vm c contractAddr sender funds
  match fundStep with
  | (calls, .error e) => ⟨c, calls, .error e⟩
  | (calls, .ok (fundEvents, cache)) =>
    match codeByAddress cache contractAddr with
    | .error e => ⟨c, calls, .error e⟩
    | .ok code =>
      let calls' := calls ++ [.entryCall contractAddr msg]
      match vm.execute code contractAddr sender msg funds (substoreOf cache contractAddr) with
      | .error e => ⟨c, calls', .error (.Vm e)⟩
      | .ok (.err e, _) => ⟨c, calls', .ok (.err e)⟩
      | .ok (.ok resp, sub) =>
        ⟨setSub cache contractAddr sub, calls',
         .ok (.ok { resp with events := fundEvents ++ resp.events })⟩

/-- `instantiate_contract`: reject labels starting with
`{ADDRESS_PREFIX}1`; derive the contract address from the label; load the
code; call `instantiate` against the address's substore view; on contract
`Ok` flush, then save the contract account, failing `AccountFound` if one
already exists at that address.  The source takes no funds beyond passing
`info` (and its funds) to the VM: no bank transfer happens here. -/
def instantiateContract (vm : PVm) (c : Chain) (sender : String) (funds : List Coin)
    (code_id : Nat) (msg : Bytes) (label : String) (admin : Option String) : ExecOut :=
  if (addressPrefix ++ "1").toList.isPrefixOf label.toList then ⟨c, [], .error .IllegalLabel⟩
  else
    let contractAddr := derive_from_label label
    match c.codes.find? code_id with
    | none => ⟨c, [], .error (.CodeNotFound code_id)⟩
    | some code =>
      match vm.instantiate code contractAddr sender msg funds (substoreOf c contractAddr) with
      | .error e => ⟨c, [.entryCall contractAddr msg], .error (.Vm e)⟩
      | .ok (.err e, _) => ⟨c, [.entryCall contractAddr msg], .ok (.err e)⟩
      | .ok (.ok resp, sub) =>
        let flushed := setSub c contractAddr sub
        match flushed.accounts.find? contractAddr with
        | some _ => ⟨flushed, [.entryCall contractAddr msg], .error (.AccountFound contractAddr)⟩
        | none =>
          ⟨{ flushed with
              accounts := flushed.accounts.insert contractAddr (.contract code_id label admin) },
           [.entryCall contractAddr msg], .ok (.ok resp)⟩

/-- Explicit divergence marker for a Rust panic. -/
inductive Diverges (α : Type) where
| ret (a : α)
| diverged (msg : String)
deriving DecidableEq

/-- `migrate_contract`: the source body is `todo!()`, which panics with
"not yet implemented" instead of returning an error. -/
def migrateContract (_c : Chain) (_contractAddr : String) (_code_id : Nat) (_msg : Bytes) :
    Diverges (Except PError CwResult) :=
  .diverged "not yet implemented"

/-- `store_code` (package flavour): increment the code count, save the code
under the new count, emit `store_code{sender, code_id, code_hash}`. -/
def storeCode (c : Chain) (sender : String) (wasm_byte_code : Bytes) : Chain × Event :=
  let code_id := c.codeCount + 1
  ({ c with codeCount := code_id, codes := c.codes.insert code_id wasm_byte_code },
   ⟨"store_code",
    [("sender", sender), ("code_id", toString code_id),
     ("code_hash", hexEncode (sha256 wasm_byte_code))]⟩)

end Pkg

namespace Sdk

/-!
The query router of `state_machine.rs`.  Every query method takes `&self`:
the borrow checker guarantees no field of `State` is written, so the
embedding returns responses without a successor state, and the sequential
wrapper `runQueries` threads the state through unchanged — which is exactly
what the source does.
-/

/-- Result of a query: a response, a returned error, or a Rust panic
(`BTreeMap` indexing on a missing key in `query_wasm_smart`). -/
inductive QueryResult (α : Type) where
| ok (a : α)
| fail (e : StateError)
| crash (msg : String)
deriving DecidableEq

/-- `AccountResponse` as `query_account` fills it: the pubkey when the
account exists, and its sequence (0 for an unknown address). -/
structure AccountResponse where
  address : String
  pubkey : Option Bytes
  sequence : Nat
deriving DecidableEq

/-- `WasmRawResponse`: the raw value under a key of a contract's store. -/
structure WasmRawResponse where
  contract : Nat
  key : Bytes
  value : Option Bytes
deriving DecidableEq

/-- `WasmSmartResponse`: the contract's query result. -/
structure WasmSmartResponse where
  contract : Nat
  result : BinResult
deriving DecidableEq

/-- `State::query_account`: an existing account's pubkey and sequence, or
`pubkey: None, sequence: 0` for an unknown address — never an error. -/
def queryAccount (s : State) (address : String) : QueryResult AccountResponse :=
  match s.accounts.find? address with
  | some account => .ok ⟨address, some account.pubkey, account.sequence⟩
  | none => .ok ⟨address, none, 0⟩

/-- `State::query_code`: the stored code, or `CodeNotFound`. -/
def queryCode (s : State) (code_id : Nat) : QueryResult Code :=
  match s.codes.find? code_id with
  | some code => .ok code
  | none => .fail (.CodeNotFound code_id)

/-- `State::query_contract`: the contract metadata, or `ContractNotFound`. -/
def queryContract (s : State) (contract_addr : Nat) : QueryResult Contract :=
  match s.contracts.find? contract_addr with
  | some contract => .ok contract
  | none => .fail (.ContractNotFound contract_addr)

/-- `State::query_wasm_raw`: read a key from a clone of the contract's
store. -/
def queryWasmRaw (s : State) (contract_addr : Nat) (key : Bytes) :
    QueryResult WasmRawResponse :=
  match s.stores.find? contract_addr with
  | none => .fail (.ContractNotFound contract_addr)
  | some storage => .ok ⟨contract_addr, key, storage.find? key⟩

/-- `State::query_wasm_smart`: run the contract's query entry point against
a clone of its store; the backend's post-call store is dropped, so even a
misbehaving VM cannot write back. -/
def queryWasmSmart (vm : Vm) (s : State) (contract_addr : Nat) (msg : Bytes) :
    QueryResult WasmSmartResponse :=
  match s.stores.find? contract_addr with
  | none => .fail (.ContractNotFound contract_addr)
  | some storage =>
    match s.contracts.find? contract_addr with
    | none => .crash "no entry found for key"
    | some contract =>
      match s.codes.find? contract.code_id with
      | none => .crash "no entry found for key"
      | some code =>
        match vm.query code.wasm_byte_code msg storage with
        | .error e => .fail (.Vm e)
        | .ok (result, _postStore) => .ok ⟨contract_addr, result⟩

/-- The query envelope dispatched by `State::handle_query` (the serde byte
round-trip at the envelope is not modelled). -/
inductive SdkQuery where
| account (address : String)
| code (code_id : Nat)
| contract (contract : Nat)
| wasmRaw (contract : Nat) (key : Bytes)
| wasmSmart (contract : Nat) (msg : Bytes)
deriving DecidableEq

/-- A query response, one constructor per query kind. -/
inductive QueryResponse where
| account (r : AccountResponse)
| code (r : Code)
| contract (r : Contract)
| wasmRaw (r : WasmRawResponse)
| wasmSmart (r : WasmSmartResponse)
deriving DecidableEq

/-- Lift a query result into the response envelope. -/
def QueryResult.map {α β : Type} (f : α → β) : QueryResult α → QueryResult β
| .ok a => .ok (f a)
| .fail e => .fail e
| .crash m => .crash m

/-- `State::handle_query`: dispatch over the query kinds. -/
def handleQuery (vm : Vm) (s : State) : SdkQuery → QueryResult QueryResponse
| .account address => (queryAccount s address).map QueryResponse.account
| .code code_id => (queryCode s code_id).map QueryResponse.code
| .contract contract => (queryContract s contract).map QueryResponse.contract
| .wasmRaw contract key => (queryWasmRaw s contract key).map QueryResponse.wasmRaw
| .wasmSmart contract msg => (queryWasmSmart vm s contract msg).map QueryResponse.wasmSmart

/-- A sequence of queries processed against the state a caller holds; the
final state is returned alongside the responses. -/
def runQueries (vm : Vm) : State → List SdkQuery → State × List (QueryResult QueryResponse)
| s, [] => (s, [])
| s, q :: rest =>
  let r := handleQuery vm s q
  let (s', rs) := runQueries vm s rest
  (s', r :: rs)

end Sdk

section ConcreteFixtures

/-- A concrete VM whose calls always return an empty Ok response and hand
the store back unchanged. -/
def vmOkSdk : Sdk.Vm where
  instantiate := fun _ _ _ st => .ok (.ok ⟨[], [], []⟩, st)
  execute := fun _ _ _ st => .ok (.ok ⟨[], [], []⟩, st)
  query := fun _ _ st => .ok (.ok [], st)

/-- A concrete package VM whose calls always return an empty Ok response. -/
def pvmOk : Pkg.PVm where
  instantiate := fun _ _ _ _ _ kv => .ok (.ok ⟨[], [], []⟩, kv)
  execute := fun _ _ _ _ _ kv => .ok (.ok ⟨[], [], []⟩, kv)
  sudoEntry := fun _ _ _ kv => .ok (.ok ⟨[], [], []⟩, kv)

/-- A concrete package VM modelling a contract that accepts the
instantiate message `[1]` and rejects every other one with the error
string `boom`. -/
def pvmSecondRejects : Pkg.PVm where
  instantiate := fun _ _ _ msg _ kv =>
    if msg = [1] then .ok (.ok ⟨[], [], []⟩, kv) else .ok (.err "boom", kv)
  execute := fun _ _ _ _ _ kv => .ok (.ok ⟨[], [], []⟩, kv)
  sudoEntry := fun _ _ _ kv => .ok (.ok ⟨[], [], []⟩, kv)

/-- A concrete package VM whose bank contract rejects every transfer. -/
def pvmBankErr : Pkg.PVm where
  instantiate := fun _ _ _ _ _ kv => .ok (.ok ⟨[], [], []⟩, kv)
  execute := fun _ _ _ _ _ kv => .ok (.ok ⟨[], [], []⟩, kv)
  sudoEntry := fun _ _ _ kv => .ok (.err "insufficient funds", kv)

/-- A chain holding one stored code. -/
def chainOneCode : Pkg.Chain := ⟨1, [(1, [0])], [], []⟩

/-- A chain holding one stored code and a bank contract account at the
bank address. -/
def chainWithBank : Pkg.Chain :=
  ⟨1, [(1, [0])], [(derive_from_label "bank", .contract 1 "bank" none)], []⟩

end ConcreteFixtures

/-- C10: `query_account` never errors: for a known address it returns the
account's pubkey (wrapped in `Some`) and its sequence; for an unknown
address it returns `pubkey: None` with `sequence: 0` instead of an
account-not-found error. -/
theorem C10_query_account_never_errors (s : Sdk.State) (address : String) :
    Sdk.queryAccount s address =
      .ok ⟨address, (s.accounts.find? address).map Sdk.Account.pubkey,
           ((s.accounts.find? address).map Sdk.Account.sequence).getD 0⟩ := by
  unfold Sdk.queryAccount
  cases s.accounts.find? address <;> rfl

/-- C5: in the sdk state machine, every Migrate message returns
`MigrationUnsupported` and leaves the state unchanged; the package
implementation's `migrate_contract`, by contrast, panics via `todo!()`
("not yet implemented") instead of returning that error — the divergence
that makes this claim a code bug. -/
theorem C5_migrate_unsupported :
    (∀ (vm : Sdk.Vm) (s : Sdk.State) (sender : String) (contract code_id : Nat) (msg : Bytes),
        Sdk.handleMsg vm s sender (.migrate contract code_id msg) =
          (s, .fail .MigrationUnsupported)) ∧
    (∀ (c : Pkg.Chain) (contractAddr : String) (code_id : Nat) (msg : Bytes),
        Pkg.migrateContract c contractAddr code_id msg = .diverged "not yet implemented") :=
  ⟨fun _ _ _ _ _ _ => rfl, fun _ _ _ _ => rfl⟩

set_option maxRecDepth 8000 in
/-- C4: `commit` advances the block height by exactly 1 and returns the new
height together with `sha256(u64_be(height))`; `info` is a function of the
committed state alone (equal heights give equal info); and two consecutive
commits on a fresh height-0 state return heights 1 then 2 with different
app hashes. -/
theorem C4_commit_advances_height :
    (∀ s : Sdk.State,
        (Sdk.commit s).1.height = s.height + 1 ∧
        (Sdk.commit s).2 = (s.height + 1, sha256 (u64be (s.height + 1)))) ∧
    (∀ s₁ s₂ : Sdk.State, s₁.height = s₂.height → Sdk.info s₁ = Sdk.info s₂) ∧
    ((Sdk.commit Sdk.State.empty).2.1 = 1 ∧
     (Sdk.commit (Sdk.commit Sdk.State.empty).1).2.1 = 2 ∧
     (Sdk.commit Sdk.State.empty).2.2 ≠ (Sdk.commit (Sdk.commit Sdk.State.empty).1).2.2) := by
  refine ⟨fun s => ⟨rfl, rfl⟩, fun s₁ s₂ h => ?_, by decide⟩
  unfold Sdk.info
  rw [h]

/-- Witness for C4: the info-purity conjunct applied to two equal-height
concrete states. -/
theorem C4_commit_advances_height_witness :
    Sdk.State.empty.height = (Sdk.commit Sdk.State.empty).1.height - 1 ∧
    Sdk.info Sdk.State.empty =
      Sdk.info { Sdk.State.empty with chain_id := "cw-local" } :=
  ⟨by decide, C4_commit_advances_height.2.1 Sdk.State.empty
    { Sdk.State.empty with chain_id := "cw-local" } rfl⟩

/-- C9: the query router never mutates the state: any sequence of queries
(smart queries, which run contract code, included) hands the caller's state
back unchanged, so `info` and the app hash are identical before and after. -/
theorem C9_queries_leave_state_unchanged (vm : Sdk.Vm) (s : Sdk.State)
    (qs : List Sdk.SdkQuery) :
    (Sdk.runQueries vm s qs).1 = s ∧
    Sdk.info (Sdk.runQueries vm s qs).1 = Sdk.info s := by
  have h : (Sdk.runQueries vm s qs).1 = s := by
    induction qs with
    | nil => rfl
    | cons q rest ih => simpa [Sdk.runQueries] using ih
  exact ⟨h, by rw [h]⟩

/-- C6: an Instantiate whose label begins with `{ADDRESS_PREFIX}1` fails
with `IllegalLabel` before anything runs: no VM call happens and the
returned store — code count, code registry and account registry included —
is the input unchanged. -/
theorem C6_illegal_label_rejected (vm : Pkg.PVm) (c : Pkg.Chain) (sender : String)
    (funds : List Coin) (code_id : Nat) (msg : Bytes) (label : String)
    (admin : Option String)
    (h : (addressPrefix ++ "1").toList.isPrefixOf label.toList) :
    Pkg.instantiateContract vm c sender funds code_id msg label admin =
      ⟨c, [], .error .IllegalLabel⟩ := by
  unfold Pkg.instantiateContract
  exact if_pos h

/-- Witness for C6: the spec's own scenario, label `cw1hack`. -/
theorem C6_illegal_label_rejected_witness :
    ((addressPrefix ++ "1").toList.isPrefixOf "cw1hack".toList) = true ∧
    Pkg.instantiateContract pvmOk chainOneCode "alice" [] 1 [] "cw1hack" none =
      ⟨chainOneCode, [], .error .IllegalLabel⟩ :=
  ⟨by decide, C6_illegal_label_rejected pvmOk chainOneCode "alice" [] 1 [] "cw1hack" none
    (by decide)⟩

/-- The code-registry entries a run of accepted StoreCode messages should
produce, following the spec's words (§8, invariant 1): ids count up from
the starting code count, each paired with a `Code` holding the sender and
the corresponding message's bytes. -/
def specStoreCodeEntries (sender : String) : Nat → List Bytes → List (Nat × Sdk.Code)
| _, [] => []
| c, b :: bs => (c + 1, ⟨sender, b⟩) :: specStoreCodeEntries sender (c + 1) bs

/-- The `store_code` events such a run should emit, following the spec's
words: one per message, carrying the assigned id, the sender and the hex
SHA-256 of the bytes. -/
def specStoreCodeEvents (sender : String) : Nat → List Bytes → List Event
| _, [] => []
| c, b :: bs => Sdk.storeCodeEvent sender (c + 1) b :: specStoreCodeEvents sender (c + 1) bs

/-- A run of StoreCode messages from any state whose code keys are bounded
by its code count: the count advances by the number of messages and the
registry is extended in order. -/
theorem applyMsgs_storeCode_run (vm : Sdk.Vm) (sender : String) (codes : List Bytes) :
    ∀ s : Sdk.State, (∀ k ∈ s.codes.keys, k ≤ s.code_count) →
    Sdk.applyMsgs vm sender s (codes.map Sdk.SdkMsg.storeCode) =
      ({ s with code_count := s.code_count + codes.length,
                codes := s.codes ++ specStoreCodeEntries sender s.code_count codes },
       .ok (specStoreCodeEvents sender s.code_count codes)) := by
  induction codes with
  | nil =>
    intro s _
    simp [Sdk.applyMsgs, specStoreCodeEntries, specStoreCodeEvents]
  | cons b bs ih =>
    intro s hk
    have hfresh : (s.code_count + 1) ∉ s.codes.keys := fun hmem =>
      absurd (hk _ hmem) (by omega)
    have hins := AssocMap.insert_of_not_mem s.codes (s.code_count + 1) ⟨sender, b⟩ hfresh
    have hkeys' : ∀ k ∈ (Sdk.storeCode s sender b).1.codes.keys,
        k ≤ (Sdk.storeCode s sender b).1.code_count := by
      intro k hkmem
      simp only [Sdk.storeCode, hins, AssocMap.keys, List.map_append, List.mem_append,
        List.map_cons, List.map_nil, List.mem_cons, List.not_mem_nil, or_false] at hkmem ⊢
      rcases hkmem with hold | hnew
      · exact Nat.le_succ_of_le (hk _ hold)
      · omega
    have hrec := ih (Sdk.storeCode s sender b).1 hkeys'
    simp only [Sdk.storeCode] at hrec
    rw [hins] at hrec
    simp only [List.map_cons, Sdk.applyMsgs, Sdk.handleMsg, Sdk.storeCode, hins, hrec]
    simp only [Prod.mk.injEq, Sdk.State.mk.injEq, Sdk.Outcome.ok.injEq,
      specStoreCodeEntries, specStoreCodeEvents, List.singleton_append,
      List.append_assoc, List.length_cons, List.cons_append, List.nil_append,
      true_and, and_true]
    omega

/-- The ids assigned by such a run are consecutive from the starting count. -/
theorem specStoreCodeEntries_keys (sender : String) :
    ∀ (bs : List Bytes) (c : Nat),
      (specStoreCodeEntries sender c bs).map Prod.fst = List.range' (c + 1) bs.length := by
  intro bs
  induction bs with
  | nil => intro c; rfl
  | cons b bs ih =>
    intro c
    simp [specStoreCodeEntries, List.range'_succ, ih]

/-- Lookup in the produced registry: id `c + i + 1` maps to the `i`-th
message's bytes. -/
theorem specStoreCodeEntries_find? (sender : String) :
    ∀ (bs : List Bytes) (c i : Nat), i < bs.length →
      AssocMap.find? (specStoreCodeEntries sender c bs) (c + i + 1) =
        some ⟨sender, bs.getD i []⟩ := by
  intro bs
  induction bs with
  | nil => intro c i h; simp at h
  | cons b bs ih =>
    intro c i h
    cases i with
    | zero => simp [specStoreCodeEntries, AssocMap.find?]
    | succ j =>
      have harith : c + (j + 1) + 1 = c + 1 + j + 1 := by omega
      rw [harith]
      show AssocMap.find? ((c + 1, (⟨sender, b⟩ : Sdk.Code)) ::
        specStoreCodeEntries sender (c + 1) bs) (c + 1 + j + 1) = _
      unfold AssocMap.find?
      rw [if_neg (by omega)]
      exact ih (c + 1) j (by simpa using h)

/-- C2: a sequence of `n` accepted StoreCode messages from an empty registry
assigns the code ids `1..=n` in order, stores each message's bytes under its
id, and emits one `store_code` event per message carrying the sender, the
code id and the hex-encoded SHA-256 hash of the bytes. -/
theorem C2_store_code_sequence (vm : Sdk.Vm) (sender : String) (s0 : Sdk.State)
    (codes : List Bytes) (hcount : s0.code_count = 0) (hcodes : s0.codes = []) :
    Sdk.applyMsgs vm sender s0 (codes.map Sdk.SdkMsg.storeCode) =
      ({ s0 with code_count := codes.length,
                 codes := specStoreCodeEntries sender 0 codes },
       .ok (specStoreCodeEvents sender 0 codes)) ∧
    (specStoreCodeEntries sender 0 codes).map Prod.fst = List.range' 1 codes.length ∧
    (∀ i, i < codes.length →
      AssocMap.find? (specStoreCodeEntries sender 0 codes) (i + 1) =
        some ⟨sender, codes.getD i []⟩) := by
  refine ⟨?_, by simpa using specStoreCodeEntries_keys sender codes 0,
    fun i hi => by simpa using specStoreCodeEntries_find? sender codes 0 i hi⟩
  have h := applyMsgs_storeCode_run vm sender codes s0 (by simp [hcodes, AssocMap.keys])
  rw [h, hcount, hcodes]
  simp

/-- Witness for C2: two concrete StoreCode messages from the empty state. -/
theorem C2_store_code_sequence_witness :
    Sdk.State.empty.code_count = 0 ∧
    (Sdk.applyMsgs vmOkSdk "alice" Sdk.State.empty
        ([[0], [1, 2]].map Sdk.SdkMsg.storeCode)).2 =
      .ok (specStoreCodeEvents "alice" 0 [[0], [1, 2]]) := by
  have h := C2_store_code_sequence vmOkSdk "alice" Sdk.State.empty [[0], [1, 2]] rfl rfl
  exact ⟨rfl, by rw [h.1]⟩

/-- C1: a message that fails during transaction handling leaves the
committed state exactly as it was: in the sdk machine the dispatch returns
the input state unchanged (so the block height and `info`'s app hash are
unchanged), and in the package executor any failing execute — returned
error or contract-level error — hands back the underlying store it was
given, its pending overlay writes dropped. -/
theorem C1_failed_message_state_unchanged :
    (∀ (vm : Sdk.Vm) (s : Sdk.State) (sender : String) (msg : Sdk.SdkMsg)
        (s' : Sdk.State) (e : Sdk.StateError),
        Sdk.handleMsg vm s sender msg = (s', .fail e) →
        s' = s ∧ s'.height = s.height ∧ Sdk.info s' = Sdk.info s) ∧
    (∀ (vm : Pkg.PVm) (c : Pkg.Chain) (contractAddr sender : String)
        (funds : List Coin) (msg : Bytes) (out : Pkg.ExecOut),
        Pkg.executeContract vm c contractAddr sender funds msg = out →
        (∀ e, out.result = .error e → out.chain = c) ∧
        (∀ err, out.result = .ok (.err err) → out.chain = c)) := by
  constructor
  · intro vm s sender msg s' e h
    have hs : s' = s := by
      cases msg <;>
        simp only [Sdk.handleMsg, Sdk.instantiateContract, Sdk.executeContract,
          Sdk.storeCode] at h <;>
        (repeat' split at h) <;>
        (injection h with h1 h2
         first
         | exact h1.symm
         | exact absurd h2 (by simp))
    exact ⟨hs, by rw [hs], by rw [hs]⟩
  · intro vm c contractAddr sender funds msg out hout
    subst hout
    refine ⟨fun e => ?_, fun err => ?_⟩ <;>
      (unfold Pkg.executeContract
       dsimp only
       repeat' split) <;>
      (intro hx
       first
       | rfl
       | exact absurd hx (by simp))

/-- Witness for C1: an Execute on a missing contract fails with
`ContractNotFound` and the state is untouched. -/
theorem C1_failed_message_state_unchanged_witness :
    Sdk.handleMsg vmOkSdk Sdk.State.empty "alice" (.execute 5 [] []) =
      (Sdk.State.empty, .fail (.ContractNotFound 5)) ∧
    (Sdk.State.empty = Sdk.State.empty ∧
     Sdk.State.empty.height = Sdk.State.empty.height ∧
     Sdk.info Sdk.State.empty = Sdk.info Sdk.State.empty) :=
  ⟨by decide,
   C1_failed_message_state_unchanged.1 vmOkSdk Sdk.State.empty "alice" (.execute 5 [] [])
     Sdk.State.empty (.ContractNotFound 5) (by decide)⟩

/-- C3 (amended): a successful Instantiate with label `L` registers the new
contract account exactly at `derive_from_label L`, which was vacant before;
and once an account occupies `derive_from_label L` — as after a first
successful Instantiate with that label — a second Instantiate with the same
label never succeeds: whenever its wasm instantiate call returns `Ok`, the
failure is `AccountFound`; a failing wasm call surfaces its own error
instead (see the counterexample). -/
theorem C3_instantiate_derived_address :
    (∀ (vm : Pkg.PVm) (c : Pkg.Chain) (sender : String) (funds : List Coin)
        (code_id : Nat) (msg : Bytes) (label : String) (admin : Option String)
        (chainOut : Pkg.Chain) (calls : List Pkg.PCall) (resp : Response),
        Pkg.instantiateContract vm c sender funds code_id msg label admin =
          ⟨chainOut, calls, .ok (.ok resp)⟩ →
        c.accounts.find? (derive_from_label label) = none ∧
        chainOut.accounts.find? (derive_from_label label) =
          some (.contract code_id label admin)) ∧
    (∀ (vm : Pkg.PVm) (c : Pkg.Chain) (sender : String) (funds : List Coin)
        (code_id : Nat) (msg : Bytes) (label : String) (admin : Option String)
        (acct : Pkg.Account),
        c.accounts.find? (derive_from_label label) = some acct →
        (∀ (chainOut : Pkg.Chain) (calls : List Pkg.PCall) (resp : Response),
            Pkg.instantiateContract vm c sender funds code_id msg label admin ≠
              ⟨chainOut, calls, .ok (.ok resp)⟩) ∧
        (∀ (code : Bytes) (resp : Response) (sub : Pkg.KV),
            ((addressPrefix ++ "1").toList.isPrefixOf label.toList) = false →
            c.codes.find? code_id = some code →
            vm.instantiate code (derive_from_label label) sender msg funds
                (Pkg.substoreOf c (derive_from_label label)) = .ok (.ok resp, sub) →
            (Pkg.instantiateContract vm c sender funds code_id msg label admin).result =
              .error (.AccountFound (derive_from_label label)))) := by
  constructor
  · intro vm c sender funds code_id msg label admin chainOut calls resp hout
    unfold Pkg.instantiateContract at hout
    dsimp only at hout
    repeat' split at hout
    all_goals injection hout with hchain hcalls hres
    all_goals try contradiction
    all_goals try (injection hres with hres2; contradiction)
    rename_i hnone
    subst hchain
    exact ⟨hnone, AssocMap.find?_insert_self _ _ _⟩
  · intro vm c sender funds code_id msg label admin acct hacct
    constructor
    · intro chainOut calls resp hout
      unfold Pkg.instantiateContract at hout
      dsimp only at hout
      repeat' split at hout
      all_goals injection hout with hchain hcalls hres
      all_goals try contradiction
      all_goals try (injection hres with hres2; contradiction)
      rename_i hnone
      simp only [Pkg.setSub] at hnone
      rw [hacct] at hnone
      cases hnone
    · intro code resp sub hleg hcode hvm
      unfold Pkg.instantiateContract
      dsimp only
      rw [if_neg (by rw [hleg]; exact Bool.false_ne_true)]
      simp only [hcode, hvm, Pkg.setSub]
      rw [hacct]

set_option maxRecDepth 8000 in
/-- C3 counterexample: the first Instantiate with label `mylabel` succeeds;
a second Instantiate with the same label whose instantiate message the
contract rejects fails with the contract's own error `boom`, not with
`AccountFound` — the account-collision check only runs after a successful
wasm call. -/
theorem C3_second_instantiate_not_account_found :
    ((Pkg.instantiateContract pvmSecondRejects chainOneCode "alice" [] 1 [1] "mylabel" none).result =
      .ok (.ok ⟨[], [], []⟩)) ∧
    ((Pkg.instantiateContract pvmSecondRejects
        (Pkg.instantiateContract pvmSecondRejects chainOneCode "alice" [] 1 [1] "mylabel" none).chain
        "alice" [] 1 [2] "mylabel" none).result = .ok (.err "boom")) ∧
    ((Except.ok (CwResult.err "boom") : Except Pkg.PError CwResult) ≠
      Except.error (Pkg.PError.AccountFound (derive_from_label "mylabel"))) := by
  refine ⟨by decide, by decide, by decide⟩

set_option maxRecDepth 8000 in
/-- Witness for C3: with the bank contract installed at the bank label's
derived address, a repeated Instantiate with label `bank` whose wasm call
succeeds fails with `AccountFound`. -/
theorem C3_instantiate_derived_address_witness :
    chainWithBank.accounts.find? (derive_from_label "bank") =
      some (.contract 1 "bank" none) ∧
    (Pkg.instantiateContract pvmOk chainWithBank "alice" [] 1 [] "bank" none).result =
      .error (.AccountFound (derive_from_label "bank")) :=
  ⟨by decide,
   (C3_instantiate_derived_address.2 pvmOk chainWithBank "alice" [] 1 [] "bank" none
      (.contract 1 "bank" none) (by decide)).2 [0] ⟨[], [], []⟩ [] (by decide) (by decide)
      (by decide)⟩

/-- C7 (amended): an Execute carrying non-empty funds first issues the bank
sudo call `Transfer{from: sender, to: contract, coins: funds}` — it is the
first VM invocation, before any execute entry point; a contract-level
`Err` from the bank fails the message with `FundTransferFailed` carrying
the bank's error string and leaves the store untouched; on success the
bank call's events prefix the response events.  Instantiate, by contrast,
transfers no funds: the sdk machine rejects funds-carrying Instantiate
messages with `FundsUnsupported`, and the package instantiate path never
issues a sudo call. -/
theorem C7_funds_transfer :
    (∀ (vm : Pkg.PVm) (c : Pkg.Chain) (contractAddr sender : String) (funds : List Coin)
        (msg : Bytes) (bankCode : Bytes),
        funds ≠ [] →
        Pkg.codeByAddress c (derive_from_label "bank") = .ok bankCode →
        ((Pkg.executeContract vm c contractAddr sender funds msg).calls =
            [.sudoCall (derive_from_label "bank") (.transfer sender contractAddr funds)] ∨
         (Pkg.executeContract vm c contractAddr sender funds msg).calls =
            [.sudoCall (derive_from_label "bank") (.transfer sender contractAddr funds),
             .entryCall contractAddr msg])) ∧
    (∀ (vm : Pkg.PVm) (c : Pkg.Chain) (contractAddr sender : String) (funds : List Coin)
        (msg : Bytes) (bankCode : Bytes) (kv : Pkg.KV) (e : String),
        funds ≠ [] →
        Pkg.codeByAddress c (derive_from_label "bank") = .ok bankCode →
        vm.sudoEntry bankCode (derive_from_label "bank") (.transfer sender contractAddr funds)
            (Pkg.substoreOf c (derive_from_label "bank")) = .ok (.err e, kv) →
        Pkg.executeContract vm c contractAddr sender funds msg =
          ⟨c, [.sudoCall (derive_from_label "bank") (.transfer sender contractAddr funds)],
           .error (.FundTransferFailed e)⟩) ∧
    (∀ (vm : Pkg.PVm) (c : Pkg.Chain) (contractAddr sender : String) (funds : List Coin)
        (msg : Bytes) (bankCode : Bytes) (bresp : Response) (bsub : Pkg.KV)
        (code : Bytes) (resp : Response) (sub : Pkg.KV),
        funds ≠ [] →
        Pkg.codeByAddress c (derive_from_label "bank") = .ok bankCode →
        vm.sudoEntry bankCode (derive_from_label "bank") (.transfer sender contractAddr funds)
            (Pkg.substoreOf c (derive_from_label "bank")) = .ok (.ok bresp, bsub) →
        Pkg.codeByAddress (Pkg.setSub c (derive_from_label "bank") bsub) contractAddr = .ok code →
        vm.execute code contractAddr sender msg funds
            (Pkg.substoreOf (Pkg.setSub c (derive_from_label "bank") bsub) contractAddr) =
          .ok (.ok resp, sub) →
        (Pkg.executeContract vm c contractAddr sender funds msg).result =
          .ok (.ok { resp with events := bresp.events ++ resp.events })) ∧
    (∀ (vm : Sdk.Vm) (s : Sdk.State) (sender : String) (code_id : Nat) (msg : Bytes)
        (funds : List Coin) (label : String) (admin : Option String),
        funds ≠ [] →
        Sdk.handleMsg vm s sender (.instantiate code_id msg funds label admin) =
          (s, .fail .FundsUnsupported)) ∧
    (∀ (vm : Pkg.PVm) (c : Pkg.Chain) (sender : String) (funds : List Coin) (code_id : Nat)
        (msg : Bytes) (label : String) (admin : Option String) (addr : String)
        (bmsg : Pkg.BankSudoMsg),
        Pkg.PCall.sudoCall addr bmsg ∉
          (Pkg.instantiateContract vm c sender funds code_id msg label admin).calls) := by
  refine ⟨?_, ?_, ?_, ?_, ?_⟩
  · intro vm c contractAddr sender funds msg bankCode hf hbank
    unfold Pkg.executeContract Pkg.transferFunds Pkg.sudoContract
    dsimp only
    rw [if_neg hf, hbank]
    dsimp only
    rcases hs : vm.sudoEntry bankCode (derive_from_label "bank")
        (.transfer sender contractAddr funds)
        (Pkg.substoreOf c (derive_from_label "bank")) with e | cp
    · left; rfl
    · obtain ⟨cr, kv⟩ := cp
      rcases cr with resp | e
      · dsimp only
        rcases hc : Pkg.codeByAddress (Pkg.setSub c (derive_from_label "bank") kv)
            contractAddr with e' | code
        · left; rfl
        · dsimp only
          rcases he : vm.execute code contractAddr sender msg funds
              (Pkg.substoreOf (Pkg.setSub c (derive_from_label "bank") kv) contractAddr)
            with e'' | cp2
          · right; rfl
          · obtain ⟨cr2, kv2⟩ := cp2
            rcases cr2 with r2 | e2
            · right; rfl
            · right; rfl
      · left; rfl
  · intro vm c contractAddr sender funds msg bankCode kv e hf hbank hsudo
    unfold Pkg.executeContract Pkg.transferFunds Pkg.sudoContract
    dsimp only
    rw [if_neg hf, hbank]
    dsimp only
    rw [hsudo]
  · intro vm c contractAddr sender funds msg bankCode bresp bsub code resp sub hf hbank
      hsudo hcode hexec
    unfold Pkg.executeContract Pkg.transferFunds Pkg.sudoContract
    dsimp only
    rw [if_neg hf, hbank]
    dsimp only
    rw [hsudo]
    dsimp only
    rw [hcode]
    dsimp only
    rw [hexec]
  · intro vm s sender code_id msg funds label admin hf
    unfold Sdk.handleMsg Sdk.instantiateContract
    dsimp only
    rw [if_pos hf]
  · intro vm c sender funds code_id msg label admin addr bmsg
    unfold Pkg.instantiateContract
    dsimp only
    repeat' split
    all_goals simp

set_option maxRecDepth 8000 in
/-- C7 counterexample: a funds-carrying Instantiate issues no bank Transfer
sudo call.  The sdk machine rejects it up front with `FundsUnsupported`
(not `FundTransferFailed`), and the package instantiate path runs the
entry point as its only VM invocation — and even succeeds — despite the
non-empty funds. -/
theorem C7_counterexample :
    (Sdk.handleMsg vmOkSdk Sdk.State.empty "alice"
        (.instantiate 1 [] [⟨"uatom", 100⟩] "foo" none) =
      (Sdk.State.empty, .fail .FundsUnsupported)) ∧
    ((Pkg.instantiateContract pvmOk chainOneCode "alice" [⟨"uatom", 100⟩] 1 [] "foo" none).calls =
      [.entryCall (derive_from_label "foo") []]) ∧
    ((Pkg.instantiateContract pvmOk chainOneCode "alice" [⟨"uatom", 100⟩] 1 [] "foo" none).result =
      .ok (.ok ⟨[], [], []⟩)) := by
  refine ⟨by decide, by decide, by decide⟩

set_option maxRecDepth 8000 in
/-- Witness for C7: a concrete Execute whose bank transfer is rejected
fails with `FundTransferFailed` after exactly the one sudo call, and a
concrete funds-carrying Instantiate fails with `FundsUnsupported`. -/
theorem C7_funds_transfer_witness :
    ([(⟨"uatom", 5⟩ : Coin)] ≠ []) ∧
    Pkg.codeByAddress chainWithBank (derive_from_label "bank") = .ok [0] ∧
    pvmBankErr.sudoEntry [0] (derive_from_label "bank")
        (.transfer "alice" "cw1target" [⟨"uatom", 5⟩])
        (Pkg.substoreOf chainWithBank (derive_from_label "bank")) =
      .ok (.err "insufficient funds", []) ∧
    Pkg.executeContract pvmBankErr chainWithBank "cw1target" "alice" [⟨"uatom", 5⟩] [] =
      ⟨chainWithBank,
       [.sudoCall (derive_from_label "bank") (.transfer "alice" "cw1target" [⟨"uatom", 5⟩])],
       .error (.FundTransferFailed "insufficient funds")⟩ ∧
    Sdk.handleMsg vmOkSdk Sdk.State.empty "alice" (.instantiate 1 [] [⟨"uatom", 5⟩] "foo" none) =
      (Sdk.State.empty, .fail .FundsUnsupported) :=
  ⟨by decide, by decide, by decide,
   C7_funds_transfer.2.1 pvmBankErr chainWithBank "cw1target" "alice" [⟨"uatom", 5⟩] [] [0] []
     "insufficient funds" (by decide) (by decide) (by decide),
   C7_funds_transfer.2.2.2.1 vmOkSdk Sdk.State.empty "alice" 1 [] [⟨"uatom", 5⟩] "foo" none
     (by decide)⟩

/-- C8: events of a successful message are ordered fund-transfer events
first, then the single primary event (`store_code` /
`instantiate_contract` / `execute_contract`, carrying the response's
attributes), then the contract-response-supplied events.  In the sdk
machine funds are unsupported, so the fund prefix is empty and every
success is primary-then-response-events; in the package executor the
bank events precede the entry point's response events, and the sudo call
precedes the entry call. -/
theorem C8_event_order :
    (∀ (vm : Sdk.Vm) (s : Sdk.State) (sender : String) (w : Bytes),
        Sdk.handleMsg vm s sender (.storeCode w) =
          ((Sdk.storeCode s sender w).1,
           .ok ([] ++ [Sdk.storeCodeEvent sender (s.code_count + 1) w] ++ []))) ∧
    (∀ (vm : Sdk.Vm) (s : Sdk.State) (sender : String) (code_id : Nat) (msg : Bytes)
        (label : String) (admin : Option String) (code : Sdk.Code) (resp : Response)
        (st : Sdk.ContractStore),
        s.codes.find? code_id = some code →
        vm.instantiate code.wasm_byte_code sender msg AssocMap.empty = .ok (.ok resp, st) →
        resp.messages = [] →
        (Sdk.handleMsg vm s sender (.instantiate code_id msg [] label admin)).2 =
          .ok ([] ++
            [⟨"instantiate_contract",
              [("sender", sender), ("code_id", toString code_id),
               ("contract_address", toString (s.contract_count + 1))] ++ resp.attributes⟩] ++
            resp.events)) ∧
    (∀ (vm : Sdk.Vm) (s : Sdk.State) (sender : String) (contract : Nat) (msg : Bytes)
        (storage : Sdk.ContractStore) (contractMeta : Sdk.Contract) (code : Sdk.Code)
        (resp : Response) (st : Sdk.ContractStore),
        s.stores.find? contract = some storage →
        s.contracts.find? contract = some contractMeta →
        s.codes.find? contractMeta.code_id = some code →
        vm.execute code.wasm_byte_code sender msg storage = .ok (.ok resp, st) →
        resp.messages = [] →
        (Sdk.handleMsg vm s sender (.execute contract msg [])).2 =
          .ok ([] ++
            [⟨"execute_contract",
              [("sender", sender), ("contract_address", toString contract)] ++
                resp.attributes⟩] ++
            resp.events)) ∧
    (∀ (vm : Pkg.PVm) (c : Pkg.Chain) (contractAddr sender : String) (funds : List Coin)
        (msg : Bytes) (bankCode : Bytes) (bresp : Response) (bsub : Pkg.KV)
        (code : Bytes) (resp : Response) (sub : Pkg.KV),
        funds ≠ [] →
        Pkg.codeByAddress c (derive_from_label "bank") = .ok bankCode →
        vm.sudoEntry bankCode (derive_from_label "bank") (.transfer sender contractAddr funds)
            (Pkg.substoreOf c (derive_from_label "bank")) = .ok (.ok bresp, bsub) →
        Pkg.codeByAddress (Pkg.setSub c (derive_from_label "bank") bsub) contractAddr = .ok code →
        vm.execute code contractAddr sender msg funds
            (Pkg.substoreOf (Pkg.setSub c (derive_from_label "bank") bsub) contractAddr) =
          .ok (.ok resp, sub) →
        ∃ chainOut,
          Pkg.executeContract vm c contractAddr sender funds msg =
            ⟨chainOut,
             [.sudoCall (derive_from_label "bank") (.transfer sender contractAddr funds),
              .entryCall contractAddr msg],
             .ok (.ok { resp with events := bresp.events ++ resp.events })⟩) := by
  refine ⟨?_, ?_, ?_, ?_⟩
  · intro vm s sender w
    rfl
  · intro vm s sender code_id msg label admin code resp st hcode hvm hmsgs
    unfold Sdk.handleMsg Sdk.instantiateContract
    dsimp only
    rw [if_neg (by simp), hcode]
    dsimp only
    rw [hvm]
    dsimp only
    rw [if_neg (by simp [hmsgs])]
    rfl
  · intro vm s sender contract msg storage contractMeta code resp st hstore hcontract
      hcode hvm hmsgs
    unfold Sdk.handleMsg Sdk.executeContract
    dsimp only
    rw [if_neg (by simp), hstore]
    dsimp only
    rw [hcontract]
    dsimp only
    rw [hcode]
    dsimp only
    rw [hvm]
    dsimp only
    rw [if_neg (by simp [hmsgs])]
    rfl
  · intro vm c contractAddr sender funds msg bankCode bresp bsub code resp sub hf hbank
      hsudo hcode hexec
    refine ⟨Pkg.setSub (Pkg.setSub c (derive_from_label "bank") bsub) contractAddr sub, ?_⟩
    unfold Pkg.executeContract Pkg.transferFunds Pkg.sudoContract
    dsimp only
    rw [if_neg hf, hbank]
    dsimp only
    rw [hsudo]
    dsimp only
    rw [hcode]
    dsimp only
    rw [hexec]
    rfl

/-- A state holding one stored code, for witnesses. -/
def sdkOneCode : Sdk.State :=
  { Sdk.State.empty with code_count := 1, codes := [(1, ⟨"alice", [0]⟩)] }

/-- Witness for C8: a concrete successful Instantiate's event list is the
primary event followed by the (here empty) response events, with no fund
events in front. -/
theorem C8_event_order_witness :
    sdkOneCode.codes.find? 1 = some ⟨"alice", [0]⟩ ∧
    (Sdk.handleMsg vmOkSdk sdkOneCode "alice" (.instantiate 1 [] [] "demo" none)).2 =
      .ok [⟨"instantiate_contract",
            [("sender", "alice"), ("code_id", "1"), ("contract_address", "1")]⟩] :=
  ⟨rfl,
   C8_event_order.2.1 vmOkSdk sdkOneCode "alice" 1 [] "demo" none ⟨"alice", [0]⟩
     ⟨[], [], []⟩ [] (by decide) (by decide) rfl⟩
